import Mathlib

/-
Verification of the tabular reinforcement-learning core of the rl_agent_sc2
repository: the Q-learning value table (src/algorithms/q_learning.py) and the
controller/episode state machine of the Q-learning agent
(src/agent_qlearning.py).

Modelling conventions:
* Python floats are modelled by ℚ wherever the source only does field
  arithmetic and comparisons; `np.exp` forces ℝ for the exploration decay.
* The pandas `DataFrame` `q_table` is modelled as an association list from
  state keys to rows; a row is a total function `Policy → ℚ` (in the source the rows are series indexed by the registered policy columns, initialised to 0;
  lookups outside the registered columns raise in pandas and never occur in
  the source, so the total function with default 0 is a conservative model).
* `df.loc[s, a]` reads the first row keyed `s` (duplicate keys never arise:
  insertion is guarded by membership); `df.loc[s, a] = v` writes every row
  keyed `s` at column `a`.
* Random draws (`np.random.uniform`, `np.random.choice`) are passed in as
  explicit inputs: a rational draw `u` and a selector index `k`; `choice`
  from a list is modelled as indexing by `k` modulo the list length, so each
  element of the list is a possible outcome.
-/

namespace RLAgentSC2

abbrev State := String
abbrev Policy := String

/-- One entry of `episode_rewards`: `(state, action, instant_reward, next_state)`.
The first three components are optional because the agent stores
`previous_state` / `previous_policy` (both `None` at episode start) and
`propagate_rewards` guards on all three being non-`None`. -/
abbrev TrajEntry := Option State × Option Policy × Option ℚ × State

/-- Rows of the modelled `q_table` DataFrame. -/
abbrev Row := State × (Policy → ℚ)

/-- Model of `df.loc[s, a]` on the modelled table: value at column `a` of the first row
keyed `s` (0 if no such row; the source only reads states it has inserted). -/
def locList : List Row → State → Policy → ℚ
  | [], _, _ => 0
  | row :: rest, s, a => if row.1 = s then row.2 a else locList rest s a

/-- Model of `df.loc[s, a] = v`: write column `a` of every row keyed `s`. -/
def setLocList : List Row → State → Policy → ℚ → List Row
  | [], _, _, _ => []
  | row :: rest, s, a, v =>
      if row.1 = s then
        (row.1, fun p => if p = a then v else row.2 p) :: setLocList rest s a v
      else
        row :: setLocList rest s a v

/-- Model of `s in df.index`. -/
def hasStateList : List Row → State → Bool
  | [], _ => false
  | row :: rest, s => row.1 = s || hasStateList rest s

/-- Model of `np.max` / `Series.max` over a list of values (the source only takes the
maximum of rows over the non-empty registered-policy columns). -/
def listMax : List ℚ → ℚ
  | [] => 0
  | [x] => x
  | x :: y :: rest => max x (listMax (y :: rest))

/-- The state of a `QLearningTable` instance
(src/algorithms/q_learning.py, class `QLearningTable`). -/
structure QLearningTable where
  policies : List Policy
  total_policies : Nat
  learning_rate : ℚ
  reward_decay : ℚ
  q_table : List Row

namespace QLearningTable

/-- Model of `QLearningTable.__init__(policies, total_policies)` when no prior CSV
snapshot exists: hyperparameters are set to 0 and `create_model` returns an
empty DataFrame with the policies as columns.  `self.columns`
(`q_table.columns[0:total_policies]`) is recovered by `columns` below. -/
def init (policies : List Policy) (total_policies : Nat) : QLearningTable :=
  { policies := policies
    total_policies := total_policies
    learning_rate := 0
    reward_decay := 0
    q_table := [] }

/-- Model of `self.columns = self.q_table.columns[0:self.total_policies]`; for a fresh
table the DataFrame columns are exactly `policies`. -/
def columns (t : QLearningTable) : List Policy :=
  t.policies.take t.total_policies

/-- The key set (`q_table.index`) of the table. -/
def keys (t : QLearningTable) : List State :=
  t.q_table.map Prod.fst

def hasState (t : QLearningTable) (s : State) : Bool :=
  hasStateList t.q_table s

def loc (t : QLearningTable) (s : State) (a : Policy) : ℚ :=
  locList t.q_table s a

def setLoc (t : QLearningTable) (s : State) (a : Policy) (v : ℚ) : QLearningTable :=
  { t with q_table := setLocList t.q_table s a v }

/-- Model of `self.q_table.loc[s_, self.columns].max()`. -/
def rowMax (t : QLearningTable) (s : State) : ℚ :=
  listMax (t.columns.map fun p => t.loc s p)

/-- Model of `QLearningTable.check_state_exist(state)`: append a fresh all-zero row
(`pd.Series([0] * len(self.policies), index=self.q_table.columns, name=state)`)
when `state` is not in the index. -/
def check_state_exist (t : QLearningTable) (state : State) : QLearningTable :=
  if t.hasState state then t
  else { t with q_table := t.q_table ++ [(state, fun _ => 0)] }

/-- Model of `QLearningTable.setup_hyperparameters(condition)`. -/
def setup_hyperparameters (t : QLearningTable) (condition : Bool) : QLearningTable :=
  if condition then
    { t with learning_rate := 0.001, reward_decay := 0.9 }
  else
    { t with learning_rate := 0.01, reward_decay := 0.99 }

/-- Model of `QLearningTable.learn(s, a, r, s_)`: ensure a row for `s_` exists (the
source calls `check_state_exist(s_)` before testing for the terminal
sentinel), bootstrap from the row maximum of `s_` unless the next state equals the terminal sentinel,
and move `q_table.loc[s, a]` toward the target by `learning_rate`. -/
def learn (t : QLearningTable) (s : State) (a : Policy) (r : ℚ) (s_ : State) :
    QLearningTable :=
  let t1 := t.check_state_exist s_
  let q_predict := t1.loc s a
  let q_target := if s_ ≠ "terminal" then r + t1.reward_decay * t1.rowMax s_ else r
  t1.setLoc s a (q_predict + t1.learning_rate * (q_target - q_predict))

/-- The body of the propagation loop: one iteration of
`for i, (state, action, instant_reward, next_state) in enumerate(episode_rewards)`,
guarded by `state`, `action` and `instant_reward` all being non-`None`.
Note the `learn` call passes `final_reward`, not the per-entry
`instant_reward`. -/
def propagateStep (final_reward : ℚ) (acc : QLearningTable) : TrajEntry → QLearningTable
  | (some state, some action, some _, next_state) =>
      acc.learn state action final_reward next_state
  | _ => acc

/-- Model of `QLearningTable.propagate_rewards(episode_rewards, final_reward)`: switch
to the retrain hyperparameters, return early when the trajectory is empty,
otherwise run the propagation loop and finally restore the normal
hyperparameters. -/
def propagate_rewards (t : QLearningTable) (episode_rewards : List TrajEntry)
    (final_reward : ℚ) : QLearningTable :=
  let t0 := t.setup_hyperparameters false
  if episode_rewards.length = 0 then t0
  else
    (episode_rewards.foldl (propagateStep final_reward) t0).setup_hyperparameters true

/-- Model of `np.random.choice(l)`, realised by an external selector index `k`:
the element at position `k` modulo the length. -/
def pick (l : List Policy) (k : Nat) : Policy :=
  l.getD (k % l.length) "do_nothing"

/-- Model of `QLearningTable.choose_action(observation, epsilon, game_time, training)`.
The uniform draw is the input `u`, the choice among a candidate list is made
by the selector index `k`.  `game_time` is unused by the source body. -/
def choose_action (t : QLearningTable) (observation : State) (epsilon : ℚ)
    (game_time : Nat) (training : Bool) (u : ℚ) (k : Nat) :
    (Policy × Bool) × QLearningTable :=
  let t1 := t.check_state_exist observation
  if training then
    if u < epsilon then
      ((pick (t1.policies.take t1.total_policies) k, true), t1)
    else
      let m := t1.rowMax observation
      ((pick (t1.columns.filter fun p => t1.loc observation p = m) k, false), t1)
  else
    if 0 < t1.columns.length then
      let m := t1.rowMax observation
      ((pick (t1.columns.filter fun p => t1.loc observation p = m) k, false), t1)
    else
      (("do_nothing", false), t1)

/-- Model of `QLearningTable.exponential_decay(episode, EXPLORATION_DECAY,
EXPLORATION_MAX) = EXPLORATION_MAX * np.exp(-EXPLORATION_DECAY * episode)`
(`self` is unused by the source body). -/
noncomputable def exponential_decay (episode : Nat) (EXPLORATION_DECAY EXPLORATION_MAX : ℝ) : ℝ :=
  EXPLORATION_MAX * Real.exp (-(EXPLORATION_DECAY * (episode : ℝ)))

/-- The hyperparameter pair `(learning_rate, reward_decay)` of a table. -/
def hyperPair (t : QLearningTable) : ℚ × ℚ :=
  (t.learning_rate, t.reward_decay)

end QLearningTable

/-- The public operations a client can perform on a `QLearningTable` instance
after construction (used to state lifetime invariants). -/
inductive QOp where
  | learnOp (s : State) (a : Policy) (r : ℚ) (s_ : State)
  | setupOp (condition : Bool)
  | propagateOp (episode_rewards : List TrajEntry) (final_reward : ℚ)
  | chooseOp (observation : State) (epsilon : ℚ) (game_time : Nat)
      (training : Bool) (u : ℚ) (k : Nat)
  | ensureOp (s : State)

def applyOp (t : QLearningTable) : QOp → QLearningTable
  | .learnOp s a r s_ => t.learn s a r s_
  | .setupOp c => t.setup_hyperparameters c
  | .propagateOp er f => t.propagate_rewards er f
  | .chooseOp o e g tr u k => (t.choose_action o e g tr u k).2
  | .ensureOp s => t.check_state_exist s

def runOps (t : QLearningTable) (ops : List QOp) : QLearningTable :=
  ops.foldl applyOp t

/- ### Basic lemmas about the list-level table operations -/

theorem hasStateList_append (rows extra : List Row) (s : State) :
    hasStateList (rows ++ extra) s = (hasStateList rows s || hasStateList extra s) := by
  induction rows with
  | nil => simp [hasStateList]
  | cons row rest ih => simp [hasStateList, ih, Bool.or_assoc]

theorem hasStateList_eq_true_iff (rows : List Row) (s : State) :
    hasStateList rows s = true ↔ s ∈ rows.map Prod.fst := by
  induction rows with
  | nil => simp [hasStateList]
  | cons row rest ih =>
      simp only [hasStateList, Bool.or_eq_true, decide_eq_true_eq, List.map_cons,
        List.mem_cons, ih]
      constructor
      · rintro (h | h)
        · exact Or.inl h.symm
        · exact Or.inr h
      · rintro (h | h)
        · exact Or.inl h.symm
        · exact Or.inr h

theorem locList_append_zero (rows : List Row) (s₀ s : State) (a : Policy) :
    locList (rows ++ [(s₀, fun _ => 0)]) s a = locList rows s a := by
  induction rows with
  | nil => simp [locList]
  | cons row rest ih =>
      by_cases h : row.1 = s
      · simp [locList, h]
      · simp [locList, h, ih]

theorem map_fst_setLocList (rows : List Row) (s : State) (a : Policy) (v : ℚ) :
    (setLocList rows s a v).map Prod.fst = rows.map Prod.fst := by
  induction rows with
  | nil => rfl
  | cons row rest ih =>
      by_cases h : row.1 = s
      · simp [setLocList, h, ih]
      · simp [setLocList, h, ih]

theorem locList_setLocList_same (rows : List Row) (s : State) (a : Policy) (v : ℚ)
    (h : hasStateList rows s = true) :
    locList (setLocList rows s a v) s a = v := by
  induction rows with
  | nil => simp [hasStateList] at h
  | cons row rest ih =>
      by_cases hr : row.1 = s
      · simp [setLocList, locList, hr]
      · have h' : hasStateList rest s = true := by
          simp only [hasStateList, Bool.or_eq_true, decide_eq_true_eq] at h
          exact h.resolve_left hr
        simp [setLocList, locList, hr, ih h']

theorem locList_setLocList_ne (rows : List Row) (s : State) (a : Policy) (v : ℚ)
    (s' : State) (a' : Policy) (h : ¬(s' = s ∧ a' = a)) :
    locList (setLocList rows s a v) s' a' = locList rows s' a' := by
  induction rows with
  | nil => rfl
  | cons row rest ih =>
      simp only [setLocList]
      by_cases hr : row.1 = s
      · rw [if_pos hr]
        simp only [locList]
        by_cases hr' : row.1 = s'
        · have hs : s' = s := hr'.symm.trans hr
          have ha : ¬ a' = a := fun ha' => h ⟨hs, ha'⟩
          rw [if_pos hr', if_pos hr', if_neg ha]
        · rw [if_neg hr', if_neg hr']
          exact ih
      · rw [if_neg hr]
        simp only [locList]
        by_cases hr' : row.1 = s'
        · rw [if_pos hr', if_pos hr']
        · rw [if_neg hr', if_neg hr']
          exact ih

/- ### Basic lemmas about the table operations -/

namespace QLearningTable

theorem hasState_iff (t : QLearningTable) (s : State) :
    t.hasState s = true ↔ s ∈ t.keys :=
  hasStateList_eq_true_iff t.q_table s

theorem check_state_exist_learning_rate (t : QLearningTable) (s : State) :
    (t.check_state_exist s).learning_rate = t.learning_rate := by
  unfold check_state_exist; split <;> rfl

theorem check_state_exist_reward_decay (t : QLearningTable) (s : State) :
    (t.check_state_exist s).reward_decay = t.reward_decay := by
  unfold check_state_exist; split <;> rfl

theorem check_state_exist_policies (t : QLearningTable) (s : State) :
    (t.check_state_exist s).policies = t.policies := by
  unfold check_state_exist; split <;> rfl

theorem check_state_exist_total_policies (t : QLearningTable) (s : State) :
    (t.check_state_exist s).total_policies = t.total_policies := by
  unfold check_state_exist; split <;> rfl

theorem check_state_exist_columns (t : QLearningTable) (s : State) :
    (t.check_state_exist s).columns = t.columns := by
  unfold columns
  rw [check_state_exist_policies, check_state_exist_total_policies]

theorem loc_check_state_exist (t : QLearningTable) (s₀ s : State) (a : Policy) :
    (t.check_state_exist s₀).loc s a = t.loc s a := by
  unfold check_state_exist loc
  split
  · rfl
  · exact locList_append_zero t.q_table s₀ s a

theorem rowMax_check_state_exist (t : QLearningTable) (s₀ s : State) :
    (t.check_state_exist s₀).rowMax s = t.rowMax s := by
  unfold rowMax
  rw [check_state_exist_columns]
  congr 1
  exact List.map_congr_left fun p _ => loc_check_state_exist t s₀ s p

theorem keys_check_state_exist (t : QLearningTable) (s : State) :
    (t.check_state_exist s).keys = if s ∈ t.keys then t.keys else t.keys ++ [s] := by
  unfold check_state_exist
  by_cases h : s ∈ t.keys
  · simp [(t.hasState_iff s).mpr h, h]
  · have hb : t.hasState s = false := by
      cases hb : t.hasState s with
      | true => exact absurd ((t.hasState_iff s).mp hb) h
      | false => rfl
    simp only [keys] at h
    simp [hb, h, keys]

theorem hasState_check_state_exist_self (t : QLearningTable) (s : State) :
    (t.check_state_exist s).hasState s = true := by
  rw [hasState_iff, keys_check_state_exist]
  by_cases h : s ∈ t.keys <;> simp [h]

theorem hasState_check_state_exist_mono (t : QLearningTable) (s₀ s : State)
    (h : t.hasState s = true) :
    (t.check_state_exist s₀).hasState s = true := by
  rw [hasState_iff, keys_check_state_exist]
  have := (t.hasState_iff s).mp h
  by_cases h0 : s₀ ∈ t.keys <;> simp [h0, this]

theorem setLoc_learning_rate (t : QLearningTable) (s : State) (a : Policy) (v : ℚ) :
    (t.setLoc s a v).learning_rate = t.learning_rate := rfl

theorem setLoc_reward_decay (t : QLearningTable) (s : State) (a : Policy) (v : ℚ) :
    (t.setLoc s a v).reward_decay = t.reward_decay := rfl

theorem keys_setLoc (t : QLearningTable) (s : State) (a : Policy) (v : ℚ) :
    (t.setLoc s a v).keys = t.keys :=
  map_fst_setLocList t.q_table s a v

theorem loc_setLoc_same (t : QLearningTable) (s : State) (a : Policy) (v : ℚ)
    (h : t.hasState s = true) :
    (t.setLoc s a v).loc s a = v :=
  locList_setLocList_same t.q_table s a v h

theorem loc_setLoc_ne (t : QLearningTable) (s : State) (a : Policy) (v : ℚ)
    (s' : State) (a' : Policy) (h : ¬(s' = s ∧ a' = a)) :
    (t.setLoc s a v).loc s' a' = t.loc s' a' :=
  locList_setLocList_ne t.q_table s a v s' a' h

end QLearningTable

/- ### Lemmas about `listMax`: it is the maximum of a non-empty list -/

theorem listMax_mem : ∀ (l : List ℚ), l ≠ [] → listMax l ∈ l
  | [], h => absurd rfl h
  | [x], _ => by simp [listMax]
  | x :: y :: rest, _ => by
      rcases le_total x (listMax (y :: rest)) with h | h
      · have : listMax (x :: y :: rest) = listMax (y :: rest) := by
          simp [listMax, max_eq_right h]
        rw [this]
        exact List.mem_cons_of_mem x (listMax_mem (y :: rest) (by simp))
      · have : listMax (x :: y :: rest) = x := by
          simp [listMax, max_eq_left h]
        rw [this]
        exact List.mem_cons_self x (y :: rest)

theorem le_listMax : ∀ (l : List ℚ) (x : ℚ), x ∈ l → x ≤ listMax l
  | [], x, h => absurd h (by simp)
  | [y], x, h => by
      simp at h
      simp [listMax, h]
  | y :: z :: rest, x, h => by
      rcases List.mem_cons.mp h with h | h
      · simp [listMax, h]
      · have := le_listMax (z :: rest) x h
        simp only [listMax, le_max_iff]
        exact Or.inr this

theorem locList_eq_zero_of_not_has (rows : List Row) (s : State) (a : Policy)
    (h : hasStateList rows s = false) :
    locList rows s a = 0 := by
  induction rows with
  | nil => rfl
  | cons row rest ih =>
      simp only [hasStateList, Bool.or_eq_false_iff, decide_eq_false_iff_not] at h
      simp [locList, h.1, ih h.2]

/- ### Hyperparameter bookkeeping lemmas -/

namespace QLearningTable

theorem hyperPair_check_state_exist (t : QLearningTable) (s : State) :
    (t.check_state_exist s).hyperPair = t.hyperPair := by
  unfold hyperPair
  rw [check_state_exist_learning_rate, check_state_exist_reward_decay]

theorem hyperPair_setLoc (t : QLearningTable) (s : State) (a : Policy) (v : ℚ) :
    (t.setLoc s a v).hyperPair = t.hyperPair := rfl

theorem hyperPair_learn (t : QLearningTable) (s : State) (a : Policy) (r : ℚ) (s_ : State) :
    (t.learn s a r s_).hyperPair = t.hyperPair := by
  unfold learn
  rw [hyperPair_setLoc, hyperPair_check_state_exist]

theorem hyperPair_setup_true (t : QLearningTable) :
    (t.setup_hyperparameters true).hyperPair = (0.001, 0.9) := rfl

theorem hyperPair_setup_false (t : QLearningTable) :
    (t.setup_hyperparameters false).hyperPair = (0.01, 0.99) := rfl

theorem choose_action_snd (t : QLearningTable) (o : State) (e : ℚ) (g : Nat)
    (tr : Bool) (u : ℚ) (k : Nat) :
    (t.choose_action o e g tr u k).2 = t.check_state_exist o := by
  unfold choose_action
  dsimp only
  split
  · split
    · rfl
    · rfl
  · split
    · rfl
    · rfl

theorem hyperPair_choose_action (t : QLearningTable) (o : State) (e : ℚ) (g : Nat)
    (tr : Bool) (u : ℚ) (k : Nat) :
    ((t.choose_action o e g tr u k).2).hyperPair = t.hyperPair := by
  rw [choose_action_snd, hyperPair_check_state_exist]

theorem hyperPair_propagate_rewards (t : QLearningTable) (er : List TrajEntry) (F : ℚ) :
    (t.propagate_rewards er F).hyperPair = if er = [] then (0.01, 0.99) else (0.001, 0.9) := by
  unfold propagate_rewards
  cases er with
  | nil => simp [hyperPair_setup_false]
  | cons e rest => simp [hyperPair_setup_true]

end QLearningTable

/- ### Claim theorems for the value table -/

open QLearningTable

/-- C1: for every state `s` already in the table, policy `a`, reward `r` and
next state `s_`, `learn(s, a, r, s_)` updates only `value[s][a]`, setting it
to `value[s][a] + learning_rate * (target - value[s][a])` where `target = r`
when `s_` is the terminal sentinel (no bootstrap term) and
`target = r + reward_decay * (maximum over the registered policy columns of
value[s_][·])` otherwise.  (`hcols` rules out the degenerate empty-registry
table, where the np.max of the source over an empty row would give NaN.) -/
theorem C1_learn_update (t : QLearningTable) (s : State) (a : Policy) (r : ℚ) (s_ : State)
    (hs : t.hasState s = true) (hcols : t.columns ≠ []) :
    (t.learn s a r s_).loc s a =
      t.loc s a + t.learning_rate *
        ((if s_ = "terminal" then r else r + t.reward_decay * t.rowMax s_) - t.loc s a)
    ∧ ∀ (s' : State) (a' : Policy), ¬(s' = s ∧ a' = a) →
        (t.learn s a r s_).loc s' a' = t.loc s' a' := by
  constructor
  · show ((t.check_state_exist s_).setLoc s a _).loc s a = _
    rw [loc_setLoc_same _ _ _ _ (t.hasState_check_state_exist_mono s_ s hs)]
    rw [loc_check_state_exist, check_state_exist_learning_rate,
        check_state_exist_reward_decay, rowMax_check_state_exist]
    by_cases hterm : s_ = "terminal"
    · simp [hterm]
    · simp [hterm]
  · intro s' a' hne
    show ((t.check_state_exist s_).setLoc s a _).loc s' a' = _
    rw [loc_setLoc_ne _ _ _ _ _ _ hne, loc_check_state_exist]

/-- Witness for C1 at a concrete table: the state `"s0"` is present, the
column list is non-empty, and the update equation and frame condition hold. -/
theorem C1_learn_update_witness :
    (((QLearningTable.init ["p", "q"] 2).check_state_exist "s0").hasState "s0" = true)
    ∧ (((QLearningTable.init ["p", "q"] 2).check_state_exist "s0").columns ≠ [])
    ∧ ((((QLearningTable.init ["p", "q"] 2).check_state_exist "s0").learn "s0" "p" 5 "terminal").loc "s0" "p" =
        ((QLearningTable.init ["p", "q"] 2).check_state_exist "s0").loc "s0" "p" +
          ((QLearningTable.init ["p", "q"] 2).check_state_exist "s0").learning_rate *
            ((if ("terminal" : State) = "terminal" then (5 : ℚ)
              else 5 + ((QLearningTable.init ["p", "q"] 2).check_state_exist "s0").reward_decay *
                ((QLearningTable.init ["p", "q"] 2).check_state_exist "s0").rowMax "terminal") -
              ((QLearningTable.init ["p", "q"] 2).check_state_exist "s0").loc "s0" "p")) :=
  ⟨by decide, by decide,
    (C1_learn_update ((QLearningTable.init ["p", "q"] 2).check_state_exist "s0")
      "s0" "p" 5 "terminal" (by decide) (by decide)).1⟩

/-- C5 counterexample: `learn` with the terminal sentinel does NOT leave the
key set unchanged — calling learn with the terminal sentinel on a table whose
only key is `s0` inserts a row keyed by the terminal sentinel, because the source calls
`check_state_exist(s_)` before testing for the sentinel. -/
theorem C5_counterexample :
    QLearningTable.keys
        (((QLearningTable.init ["p"] 1).check_state_exist "s0").learn "s0" "p" 5 "terminal")
      ≠ QLearningTable.keys ((QLearningTable.init ["p"] 1).check_state_exist "s0") := by
  decide

/-- C5 amended: `learn(s, a, r, s_)` guarantees a row keyed `s_` exists
afterward for EVERY `s_`, including the terminal sentinel, which is inserted
as an ordinary all-zero row when absent; apart from that single possible
insertion the key set is unchanged. -/
theorem C5_amended (t : QLearningTable) (s : State) (a : Policy) (r : ℚ) (s_ : State) :
    s_ ∈ (t.learn s a r s_).keys
    ∧ (t.learn s a r s_).keys = (if s_ ∈ t.keys then t.keys else t.keys ++ [s_]) := by
  have hk : (t.learn s a r s_).keys = (t.check_state_exist s_).keys :=
    keys_setLoc _ _ _ _
  rw [hk, keys_check_state_exist]
  refine ⟨?_, rfl⟩
  by_cases h : s_ ∈ t.keys <;> simp [h]

/-- C8: `check_state_exist` (named ensure_row in the spec) inserts an all-zero row
when the state is absent, so a subsequent lookup of any policy at that state
returns exactly 0; when the state is already present it leaves the table
completely unchanged, and in particular it is idempotent. -/
theorem C8_ensure_row (t : QLearningTable) (s : State) :
    (t.hasState s = false → ∀ p : Policy, (t.check_state_exist s).loc s p = 0)
    ∧ (t.hasState s = true → t.check_state_exist s = t)
    ∧ (t.check_state_exist s).check_state_exist s = t.check_state_exist s := by
  have h2 : ∀ (t' : QLearningTable), t'.hasState s = true → t'.check_state_exist s = t' := by
    intro t' h
    unfold QLearningTable.check_state_exist
    rw [if_pos h]
  refine ⟨?_, h2 t, h2 _ (t.hasState_check_state_exist_self s)⟩
  intro h p
  rw [loc_check_state_exist]
  exact locList_eq_zero_of_not_has t.q_table s p h

/-- Witness for C8: on a fresh table the state `"s0"` is absent, and after
`check_state_exist("s0")` the lookup of the registered policy `"p"` is 0. -/
theorem C8_ensure_row_witness :
    ((QLearningTable.init ["p"] 1).check_state_exist "s0").loc "s0" "p" = 0 :=
  (C8_ensure_row (QLearningTable.init ["p"] 1) "s0").1 (by decide) "p"

/-- C4 counterexample: immediately after construction the hyperparameter pair
is `(0, 0)` — neither the live configuration `(0.001, 0.9)` nor the retrain
configuration `(0.01, 0.99)` — so a `learn` call before the first
`setup_hyperparameters` does not use the live values. -/
theorem C4_counterexample :
    (QLearningTable.init ["policy_0"] 1).hyperPair ≠ ((0.001 : ℚ), (0.9 : ℚ))
    ∧ (QLearningTable.init ["policy_0"] 1).hyperPair ≠ ((0.01 : ℚ), (0.99 : ℚ)) := by
  constructor <;> norm_num [QLearningTable.hyperPair, QLearningTable.init, Prod.ext_iff]

/-- C4 amended: `__init__` sets the pair to `(0, 0)`, so the very first
`learn` after construction uses learning rate 0, not the live values; at
every reachable point in the lifetime of an instance the pair is one of exactly
three configurations: the initial `(0, 0)`, live `(0.001, 0.9)` or retrain
`(0.01, 0.99)` (and after any `setup_hyperparameters` or `propagate_rewards`
call it is one of the latter two). -/
theorem C4_amended (policies : List Policy) (n : Nat) (ops : List QOp) :
    (QLearningTable.init policies n).hyperPair = (0, 0)
    ∧ ((runOps (QLearningTable.init policies n) ops).hyperPair = (0, 0)
       ∨ (runOps (QLearningTable.init policies n) ops).hyperPair = (0.001, 0.9)
       ∨ (runOps (QLearningTable.init policies n) ops).hyperPair = (0.01, 0.99)) := by
  refine ⟨rfl, ?_⟩
  have key : ∀ (ops : List QOp) (t : QLearningTable),
      (t.hyperPair = (0, 0) ∨ t.hyperPair = (0.001, 0.9) ∨ t.hyperPair = (0.01, 0.99)) →
      ((runOps t ops).hyperPair = (0, 0)
        ∨ (runOps t ops).hyperPair = (0.001, 0.9)
        ∨ (runOps t ops).hyperPair = (0.01, 0.99)) := by
    intro ops
    induction ops with
    | nil => intro t h; exact h
    | cons op rest ih =>
        intro t h
        have hstep : runOps t (op :: rest) = runOps (applyOp t op) rest := rfl
        rw [hstep]
        refine ih (applyOp t op) ?_
        cases op with
        | learnOp s a r s_ =>
            have ha : applyOp t (QOp.learnOp s a r s_) = t.learn s a r s_ := rfl
            rw [ha, hyperPair_learn]
            exact h
        | setupOp c =>
            cases c with
            | true => exact Or.inr (Or.inl (hyperPair_setup_true t))
            | false => exact Or.inr (Or.inr (hyperPair_setup_false t))
        | propagateOp er f =>
            have ha : applyOp t (QOp.propagateOp er f) = t.propagate_rewards er f := rfl
            rw [ha, hyperPair_propagate_rewards]
            cases er with
            | nil => exact Or.inr (Or.inr (by simp))
            | cons e rest' => exact Or.inr (Or.inl (by simp))
        | chooseOp o e g tr u k =>
            have ha : applyOp t (QOp.chooseOp o e g tr u k) = (t.choose_action o e g tr u k).2 := rfl
            rw [ha, hyperPair_choose_action]
            exact h
        | ensureOp s =>
            have ha : applyOp t (QOp.ensureOp s) = t.check_state_exist s := rfl
            rw [ha, hyperPair_check_state_exist]
            exact h
  exact key ops _ (Or.inl rfl)

/- ### C2: propagate_rewards -/

/-- The reward-blind shape of a trajectory entry: state, action, whether an
instantaneous reward is present, and next state — everything the propagation
loop inspects apart from the reward value it ignores. -/
def entryShape (e : TrajEntry) : Option State × Option Policy × Bool × State :=
  (e.1, e.2.1, e.2.2.1.isSome, e.2.2.2)

theorem foldl_propagateStep_congr (F : ℚ) :
    ∀ (er₁ er₂ : List TrajEntry) (acc : QLearningTable),
      er₁.map entryShape = er₂.map entryShape →
      er₁.foldl (propagateStep F) acc = er₂.foldl (propagateStep F) acc
  | [], [], _, _ => rfl
  | [], _ :: _, _, h => by simp at h
  | _ :: _, [], _, h => by simp at h
  | e₁ :: r₁, e₂ :: r₂, acc, h => by
      simp only [List.map_cons, List.cons.injEq] at h
      have hstep : propagateStep F acc e₁ = propagateStep F acc e₂ := by
        rcases e₁ with ⟨s1, a1, r1, n1⟩
        rcases e₂ with ⟨s2, a2, r2, n2⟩
        simp only [entryShape, Prod.mk.injEq] at h
        obtain ⟨⟨hs, ha, hr, hn⟩, -⟩ := h
        subst hs; subst ha; subst hn
        cases s1 with
        | none => rfl
        | some s =>
            cases a1 with
            | none => rfl
            | some a =>
                cases r1 with
                | none =>
                    cases r2 with
                    | none => rfl
                    | some y => simp at hr
                | some x =>
                    cases r2 with
                    | none => simp at hr
                    | some y => rfl
      simp only [List.foldl_cons]
      rw [hstep]
      exact foldl_propagateStep_congr F r₁ r₂ _ h.2

/-- C2 counterexample: on the EMPTY trajectory the live regime is not
restored — `propagate_rewards` switches to the retrain hyperparameters and
then returns early, leaving `(learning_rate, reward_decay) = (0.01, 0.99)`
active, which differs from the live `(0.001, 0.9)`. -/
theorem C2_counterexample :
    (((QLearningTable.init ["policy_0"] 1).setup_hyperparameters true).propagate_rewards
        [] 0).hyperPair = (0.01, 0.99)
    ∧ ((0.01 : ℚ), (0.99 : ℚ)) ≠ ((0.001 : ℚ), (0.9 : ℚ)) := by
  refine ⟨rfl, ?_⟩
  norm_num [Prod.ext_iff]

/-- C2 amended: `propagate_rewards(trajectory, F)` switches to the retrain
regime and performs `learn(s, a, F, s_)` for every well-formed entry — the
stored per-step reward is ignored entirely (the result is invariant under
changing reward values), substituted rather than summed — and on return the
live regime is active again for every NON-EMPTY trajectory; on the empty
trajectory it returns early with the retrain regime still active. -/
theorem C2_amended (t : QLearningTable) (er₁ er₂ : List TrajEntry) (F : ℚ)
    (hshape : er₁.map entryShape = er₂.map entryShape) :
    t.propagate_rewards er₁ F = t.propagate_rewards er₂ F
    ∧ (er₁ ≠ [] → (t.propagate_rewards er₁ F).hyperPair = (0.001, 0.9))
    ∧ (er₁ = [] → (t.propagate_rewards er₁ F).hyperPair = (0.01, 0.99))
    ∧ ∀ (s : State) (a : Policy) (r : ℚ) (s_ : State),
        t.propagate_rewards [(some s, some a, some r, s_)] F =
          (((t.setup_hyperparameters false).learn s a F s_).setup_hyperparameters true) := by
  have hlen : er₁.length = er₂.length := by
    have := congrArg List.length hshape
    simpa using this
  refine ⟨?_, ?_, ?_, ?_⟩
  · unfold QLearningTable.propagate_rewards
    by_cases h0 : er₁.length = 0
    · rw [if_pos h0, if_pos (hlen ▸ h0)]
    · rw [if_neg h0, if_neg (by rw [← hlen]; exact h0)]
      rw [foldl_propagateStep_congr F er₁ er₂ _ hshape]
  · intro hne
    rw [hyperPair_propagate_rewards, if_neg hne]
  · intro hnil
    rw [hyperPair_propagate_rewards, if_pos hnil]
  · intro s a r s_
    rfl

/-- Witness for C2: two singleton trajectories that differ only in the stored
per-step reward (3 versus 5) propagate to identical tables. -/
theorem C2_amended_witness :
    (QLearningTable.init ["policy_0"] 1).propagate_rewards
        [(some "s0", some "policy_0", some 3, "terminal")] 7
      = (QLearningTable.init ["policy_0"] 1).propagate_rewards
        [(some "s0", some "policy_0", some 5, "terminal")] 7 :=
  (C2_amended (QLearningTable.init ["policy_0"] 1)
    [(some "s0", some "policy_0", some 3, "terminal")]
    [(some "s0", some "policy_0", some 5, "terminal")] 7 (by decide)).1

/- ### C7: choose_action -/

theorem pick_mem (l : List Policy) (k : Nat) (h : l ≠ []) : pick l k ∈ l := by
  unfold pick
  have hlen : 0 < l.length := List.length_pos.mpr h
  have hk : k % l.length < l.length := Nat.mod_lt _ hlen
  rw [List.getD_eq_getElem _ _ hk]
  exact List.getElem_mem hk

theorem pick_surjective (l : List Policy) (p : Policy) (hp : p ∈ l) :
    ∃ k : Nat, pick l k = p := by
  refine ⟨l.indexOf p, ?_⟩
  unfold pick
  have hk : l.indexOf p < l.length := List.indexOf_lt_length.mpr hp
  rw [Nat.mod_eq_of_lt hk, List.getD_eq_getElem _ _ hk]
  exact List.getElem_indexOf hk

/-- C7: in training mode, when the uniform draw is not below epsilon (in
particular always when epsilon = 0), `choose_action` returns a registered
policy whose value at the (ensured) state row equals the row maximum — i.e.
a member of the tied maximal set; when the draw is below epsilon the result
is drawn from the full registered-policy slice, and every registered policy
is a possible outcome of the selector. -/
theorem C7_choose_action (t : QLearningTable) (s : State) (epsilon u : ℚ) (g k : Nat)
    (hcols : t.columns ≠ []) :
    (¬ u < epsilon →
      ((t.choose_action s epsilon g true u k).1.1 ∈ t.columns
        ∧ t.loc s ((t.choose_action s epsilon g true u k).1.1) = t.rowMax s))
    ∧ (u < epsilon →
        ((t.choose_action s epsilon g true u k).1.1 ∈ t.policies.take t.total_policies
          ∧ ∀ p ∈ t.policies.take t.total_policies,
              ∃ k' : Nat, (t.choose_action s epsilon g true u k').1.1 = p)) := by
  have hcc : (t.check_state_exist s).columns = t.columns := check_state_exist_columns t s
  have hpp : (t.check_state_exist s).policies.take (t.check_state_exist s).total_policies
      = t.policies.take t.total_policies := by
    rw [check_state_exist_policies, check_state_exist_total_policies]
  have hloc : ∀ p, (t.check_state_exist s).loc s p = t.loc s p :=
    fun p => loc_check_state_exist t s s p
  have hmax : (t.check_state_exist s).rowMax s = t.rowMax s := rowMax_check_state_exist t s s
  constructor
  · intro hu
    have hres : (t.choose_action s epsilon g true u k).1.1
        = pick (t.columns.filter fun p => t.loc s p = t.rowMax s) k := by
      unfold QLearningTable.choose_action
      dsimp only
      rw [if_pos rfl, if_neg hu]
      dsimp only
      rw [hcc, hmax]
      congr 2
      funext p
      rw [hloc p]
    -- the tied maximal set is non-empty because the row maximum is attained
    have hmem : t.rowMax s ∈ t.columns.map (fun p => t.loc s p) := by
      apply listMax_mem
      intro hmap
      exact hcols (List.map_eq_nil_iff.mp hmap)
    obtain ⟨p0, hp0, hp0v⟩ := List.mem_map.mp hmem
    have htied : (t.columns.filter fun p => t.loc s p = t.rowMax s) ≠ [] := by
      apply List.ne_nil_of_mem (a := p0)
      exact List.mem_filter.mpr ⟨hp0, by simp [hp0v]⟩
    have hin := pick_mem _ k htied
    rw [hres]
    have hin' := List.mem_filter.mp hin
    refine ⟨hin'.1, ?_⟩
    have := hin'.2
    simpa using this
  · intro hu
    have hres : ∀ k' : Nat, (t.choose_action s epsilon g true u k').1.1
        = pick (t.policies.take t.total_policies) k' := by
      intro k'
      unfold QLearningTable.choose_action
      dsimp only
      rw [if_pos rfl, if_pos hu]
      dsimp only
      rw [check_state_exist_policies, check_state_exist_total_policies]
    have hne : t.policies.take t.total_policies ≠ [] := hcols
    constructor
    · rw [hres k]
      exact pick_mem _ k hne
    · intro p hp
      obtain ⟨k', hk'⟩ := pick_surjective _ p hp
      exact ⟨k', by rw [hres k', hk']⟩

/-- Witness for C7 at a concrete two-policy table with epsilon = 0: the draw
0 is not below epsilon, so the chosen policy attains the row maximum. -/
theorem C7_choose_action_witness :
    ((QLearningTable.init ["p0", "p1"] 2).choose_action "s" 0 0 true 0 0).1.1
        ∈ (QLearningTable.init ["p0", "p1"] 2).columns
    ∧ (QLearningTable.init ["p0", "p1"] 2).loc "s"
        (((QLearningTable.init ["p0", "p1"] 2).choose_action "s" 0 0 true 0 0).1.1)
      = (QLearningTable.init ["p0", "p1"] 2).rowMax "s" :=
  (C7_choose_action (QLearningTable.init ["p0", "p1"] 2) "s" 0 0 0 0
    (by decide)).1 (by decide)

/- ### The Q-learning agent (src/agent_qlearning.py)

The controller is modelled as a transition function on an explicit agent
state.  The module-level global `multiActions` (the scheduler queue) is a
field of that state; `executeActions()` popping its head is inlined as
`headD` / `tail` in the executing branch.  Observation-derived quantities
(`obs.last()`, the encoded state string, `obs.reward`, unit counts, the
instantaneous reward computed by the external `Reward` collaborator, the
game time, and the outcome of `qtable.choose_action` — whose internals are
verified separately above on the table model — are inputs of the
transition.  Pure bookkeeping with no control-flow effect (the `totals`
statistics array, CSV/stat persistence, logging, wall-clock fields) is
omitted. -/

/-- Module-level hyperparameters of src/agent_qlearning.py. -/
def EXPLORATION_MAX : ℝ := 1.0

def EXPLORATION_MIN : ℝ := 0.1

def EXPLORATION_DECAY : ℝ := 0.0003

/-- The epsilon the controller computes before a decision:
`qtable.exponential_decay(self.episodes, EXPLORATION_DECAY, EXPLORATION_MAX)`
then `self.epsilon = max(EXPLORATION_MIN, self.epsilon)`. -/
noncomputable def step_epsilon (episodes : Nat) : ℝ :=
  max EXPLORATION_MIN
    (QLearningTable.exponential_decay episodes EXPLORATION_DECAY EXPLORATION_MAX)

/-- Model of the Python int() conversion on a rational: truncation toward zero. -/
def pyTrunc (x : ℚ) : ℤ :=
  if 0 ≤ x then ⌊x⌋ else ⌈x⌉

/-- The terminal-reward computation of
`AgentQlearning.update_final_reward_and_retrain`: +100 on a win
(`obs.reward == 1`), -50 on a loss (`obs.reward == -1`), and on a draw the
unit-count formula — note that the source assigns BOTH `len_my` and
`len_enemy` from `len_enemy_units` (`len_my = len_enemy_units if
len_enemy_units > 0 else 1`), so `len_my_units` is never used. -/
def final_reward_value (obs_reward : Int) (len_my_units len_enemy_units : Nat) : ℚ :=
  let c : ℚ := 0.1
  let r_win : ℚ := 100
  let r_loss : ℚ := -50
  if obs_reward = 1 then r_win
  else if obs_reward = -1 then r_loss
  else if obs_reward = 0 then
    let len_my : ℚ := if 0 < len_enemy_units then (len_enemy_units : ℚ) else 1
    let len_enemy : ℚ := if 0 < len_enemy_units then (len_enemy_units : ℚ) else 1
    if len_enemy ≤ len_my then
      ((min (pyTrunc (c * (len_my / len_enemy))) 10 : ℤ) : ℚ)
    else
      ((max (pyTrunc (-c * (len_enemy / len_my))) (-1) : ℤ) : ℚ)
  else 0

/-- Model of `TerranAgent._set_policies` (src/general_agent.py): the policy registry
mapping policy identifiers to their ordered atomic-action lists. -/
def dict_policies : Policy → Option (List String)
  | "policy_0" => some ["do_nothing"]
  | "policy_1" => some ["build_scv"]
  | "policy_2" => some ["harvest_minerals"]
  | "policy_3" => some ["harvest_gas"]
  | "policy_4" => some ["build_command_center", "harvest_minerals", "harvest_minerals"]
  | "policy_5" => some ["explore_csv"]
  | "policy_6" => some ["build_supply_depot"]
  | "policy_7" => some ["build_barracks", "train_marine", "train_marine", "train_marine",
      "train_marine", "train_marine"]
  | "policy_8" => some ["build_bunker"]
  | "policy_9" => some ["build_tech_lab", "train_marauder", "train_marauder",
      "train_marauder", "train_marauder"]
  | "policy_10" => some ["attack_with_marine", "attack_with_marine", "attack_with_marine",
      "attack_with_marine", "attack_with_marine"]
  | "policy_11" => some ["defense_with_marine", "defense_with_marine", "defense_with_marine",
      "defense_with_marine", "defense_with_marine"]
  | "policy_12" => some ["attack_with_marine", "attack_with_marine", "attack_with_marine",
      "attack_with_marine", "attack_with_marine", "attack_with_marauder", "attack_with_marauder"]
  | "policy_13" => some ["attack_with_marauder", "attack_with_marauder", "attack_with_marauder"]
  | _ => none

/-- The controller state of `AgentQlearning`, including the module-level
scheduler queue `multiActions`. -/
structure AgentState where
  multiActions : List String
  train_mode : Bool
  episodes : Nat
  epsilon : ℝ
  total_game_time : Nat
  count_exploration : Nat
  count_explotation : Nat
  previous_state : Option State
  previous_policy : Option Policy
  total_rewards_by_policy : ℚ
  total_rewards_by_episode : ℚ
  episode_rewards : List TrajEntry
  reward_final : ℚ
  qtable : QLearningTable

/-- The command the step method of the agent hands back to the environment. -/
inductive Command where
  | dispatch (action : String)
  | no_op

/-- Model of `AgentQlearning.update_final_reward_and_retrain(obs, final_state)`:
compute the terminal reward, accumulate it, append the final
`(previous_state, previous_policy, reward_final, final_state)` entry, call
`qtable.learn` directly with the terminal reward, then propagate it over
the whole trajectory.  (When `previous_state`/`previous_policy` are still
`None` the learn call of the source raises on the `None` index lookup; that
branch leaves the table unchanged here and is not relied on by any theorem
below.) -/
def update_final_reward_and_retrain (ag : AgentState) (obs_reward : Int)
    (len_my_units len_enemy_units : Nat) (final_state : State) : AgentState :=
  let rf := final_reward_value obs_reward len_my_units len_enemy_units
  let er := ag.episode_rewards ++ [(ag.previous_state, ag.previous_policy, some rf, final_state)]
  let qt :=
    match ag.previous_state, ag.previous_policy with
    | some s, some a => ag.qtable.learn s a rf final_state
    | _, _ => ag.qtable
  { ag with
    reward_final := rf
    total_rewards_by_episode := ag.total_rewards_by_episode + rf
    episode_rewards := er
    qtable := qt.propagate_rewards er rf }

/-- The `if multiActions:` branch of `AgentQlearning.step`: pop the next
queued atomic action, dispatch it, and (in training mode) accumulate its
instantaneous reward. -/
def execute_branch (ag1 : AgentState) (reward_actions : ℚ) : Command × AgentState :=
  let instant_action := ag1.multiActions.headD ""
  let ag2 := { ag1 with multiActions := ag1.multiActions.tail }
  let ag3 :=
    if ag2.train_mode then
      { ag2 with
        total_rewards_by_policy := ag2.total_rewards_by_policy + reward_actions
        total_rewards_by_episode := ag2.total_rewards_by_episode + reward_actions }
    else ag2
  (Command.dispatch instant_action, ag3)

/-- The `else` branch of `AgentQlearning.step` (queue empty): in training
mode record and learn the previous transition, update epsilon by clamped
exponential decay, then book the decision outcome, refill the queue from the
action list of the selected policy, and remember the new previous state/policy.
The pair `(policy_selected, random_action)` is the outcome of the
`qtable.choose_action(state, self.epsilon, game_time, self.train_mode)`
call (verified separately on the table model). -/
noncomputable def decision_branch (ag1 : AgentState) (obs_last : Bool) (state : State)
    (game_time : Nat) (policy_selected : Policy) (random_action : Bool) :
    Command × AgentState :=
  let ag2 :=
    if ag1.train_mode then
      let next_state := if obs_last then "terminal" else state
      let ag' :=
        match ag1.previous_policy with
        | some pp =>
            { ag1 with
              episode_rewards := ag1.episode_rewards ++
                [(ag1.previous_state, some pp, some ag1.total_rewards_by_policy, next_state)]
              qtable := ag1.qtable.learn (ag1.previous_state.getD "") pp
                          ag1.total_rewards_by_policy next_state }
        | none => ag1
      { ag' with epsilon := step_epsilon ag'.episodes }
    else ag1
  let ag3 := { ag2 with total_game_time := ag2.total_game_time + game_time }
  let ag4 :=
    if random_action then { ag3 with count_exploration := ag3.count_exploration + 1 }
    else { ag3 with count_explotation := ag3.count_explotation + 1 }
  let ag5 :=
    match dict_policies policy_selected with
    | some policy_select => { ag4 with multiActions := policy_select }
    | none => ag4
  (Command.no_op,
    { ag5 with
      previous_state := some state
      previous_policy := some policy_selected
      total_rewards_by_policy := 0 })

/-- Model of `AgentQlearning.step(obs)`: first, in training mode on the last
observation of the episode, run the terminal path
(`update_final_reward_and_retrain`); then either drain one queued atomic
action or make a new decision. -/
noncomputable def agent_step (ag : AgentState) (obs_last : Bool) (state : State)
    (obs_reward : Int) (len_my_units len_enemy_units : Nat) (reward_actions : ℚ)
    (game_time : Nat) (policy_selected : Policy) (random_action : Bool) :
    Command × AgentState :=
  let ag1 :=
    if ag.train_mode && obs_last then
      update_final_reward_and_retrain ag obs_reward len_my_units len_enemy_units "terminal"
    else ag
  if ag1.multiActions.isEmpty then
    decision_branch ag1 obs_last state game_time policy_selected random_action
  else
    execute_branch ag1 reward_actions

/-- Model of `AgentQlearning.new_game()`: reset the episode-scoped fields.  Note that
the scheduler queue `multiActions` (a module-level global in the source) is
NOT among them. -/
def new_game (ag : AgentState) : AgentState :=
  { ag with
    count_exploration := 0
    count_explotation := 0
    episode_rewards := []
    total_game_time := 0
    previous_state := none
    previous_policy := none
    total_rewards_by_episode := 0
    reward_final := 0 }

/- ### Frame lemmas for the agent transition -/

theorem update_final_multiActions (ag : AgentState) (orw : Int) (m e : Nat) (fs : State) :
    (update_final_reward_and_retrain ag orw m e fs).multiActions = ag.multiActions := rfl

theorem update_final_train_mode (ag : AgentState) (orw : Int) (m e : Nat) (fs : State) :
    (update_final_reward_and_retrain ag orw m e fs).train_mode = ag.train_mode := rfl

theorem update_final_episodes (ag : AgentState) (orw : Int) (m e : Nat) (fs : State) :
    (update_final_reward_and_retrain ag orw m e fs).episodes = ag.episodes := rfl

theorem execute_branch_fst (ag1 : AgentState) (r : ℚ) :
    (execute_branch ag1 r).1 = Command.dispatch (ag1.multiActions.headD "") := rfl

theorem execute_branch_multiActions (ag1 : AgentState) (r : ℚ) :
    (execute_branch ag1 r).2.multiActions = ag1.multiActions.tail := by
  unfold execute_branch
  dsimp only
  split
  · rfl
  · rfl

theorem execute_branch_qtable (ag1 : AgentState) (r : ℚ) :
    (execute_branch ag1 r).2.qtable = ag1.qtable := by
  unfold execute_branch
  dsimp only
  split
  · rfl
  · rfl

theorem new_game_multiActions (ag : AgentState) :
    (new_game ag).multiActions = ag.multiActions := rfl

theorem decision_branch_epsilon (ag1 : AgentState) (obs_last : Bool) (state : State)
    (game_time : Nat) (policy_selected : Policy) (random_action : Bool)
    (htm : ag1.train_mode = true) :
    (decision_branch ag1 obs_last state game_time policy_selected random_action).2.epsilon
      = step_epsilon ag1.episodes := by
  unfold decision_branch
  dsimp only
  rw [if_pos htm]
  cases hp : ag1.previous_policy with
  | none => cases hd : dict_policies policy_selected <;> cases random_action <;> simp [hp, hd]
  | some pp => cases hd : dict_policies policy_selected <;> cases random_action <;> simp [hp, hd]

/- ### Sample agent states for concrete scenarios -/

/-- A concrete training-mode agent state caught mid-policy: three atomic
actions still queued, one previous decision recorded. -/
noncomputable def sampleMidQueueAgent : AgentState :=
  { multiActions := ["a1", "a2", "a3"]
    train_mode := true
    episodes := 0
    epsilon := 0
    total_game_time := 0
    count_exploration := 0
    count_explotation := 0
    previous_state := some "s0"
    previous_policy := some "policy_0"
    total_rewards_by_policy := 0
    total_rewards_by_episode := 0
    episode_rewards := []
    reward_final := 0
    qtable := (QLearningTable.init ["policy_0"] 1).check_state_exist "s0" }

/-- A concrete training-mode agent state with an empty scheduler queue,
about to make a decision. -/
noncomputable def sampleIdleAgent : AgentState :=
  { multiActions := []
    train_mode := true
    episodes := 3
    epsilon := 0
    total_game_time := 0
    count_exploration := 0
    count_explotation := 0
    previous_state := some "s0"
    previous_policy := some "policy_0"
    total_rewards_by_policy := 0
    total_rewards_by_episode := 0
    episode_rewards := []
    reward_final := 0
    qtable := (QLearningTable.init ["policy_0"] 1).check_state_exist "s0" }

/- ### C3: terminal tick arriving mid-queue -/

/-- C3 counterexample: on a terminal tick with the scheduler queue still
holding `["a1", "a2", "a3"]`, the step runs the terminal path but then STILL
pops and dispatches the queued atomic action `"a1"` on that same tick,
leaving `["a2", "a3"]` queued — so a remaining queued action of the
abandoned policy IS dispatched on the terminal tick, contrary to the claim. -/
theorem C3_counterexample :
    (agent_step sampleMidQueueAgent true "s1" 0 5 5 0 0 "policy_0" false).1
      = Command.dispatch "a1"
    ∧ (agent_step sampleMidQueueAgent true "s1" 0 5 5 0 0 "policy_0" false).2.multiActions
      = ["a2", "a3"] :=
  ⟨rfl, rfl⟩

/-- C3 amended: when the terminal signal arrives on a tick while the queue
is non-empty, the step DOES run the terminal path (terminal learn plus
propagate_rewards) on that same tick; but the queue is not discarded — the
head queued action is dispatched on that very tick, the tail stays queued,
and `new_game` (the episode reset) does not clear it either, so the leftover
actions are dispatched on subsequent ticks of the next episode. -/
theorem C3_amended (ag : AgentState) (a : String) (rest : List String)
    (state : State) (obs_reward : Int) (len_my_units len_enemy_units : Nat)
    (reward_actions : ℚ) (game_time : Nat) (policy_selected : Policy)
    (random_action : Bool)
    (htm : ag.train_mode = true) (hq : ag.multiActions = a :: rest) :
    (agent_step ag true state obs_reward len_my_units len_enemy_units reward_actions
        game_time policy_selected random_action).1 = Command.dispatch a
    ∧ (agent_step ag true state obs_reward len_my_units len_enemy_units reward_actions
        game_time policy_selected random_action).2.multiActions = rest
    ∧ (agent_step ag true state obs_reward len_my_units len_enemy_units reward_actions
        game_time policy_selected random_action).2.qtable
      = (update_final_reward_and_retrain ag obs_reward len_my_units len_enemy_units
          "terminal").qtable
    ∧ (new_game (agent_step ag true state obs_reward len_my_units len_enemy_units
        reward_actions game_time policy_selected random_action).2).multiActions = rest := by
  have hu_ma : (update_final_reward_and_retrain ag obs_reward len_my_units
      len_enemy_units "terminal").multiActions = a :: rest := hq
  have hcond : (ag.train_mode && true) = true := by rw [htm]; rfl
  have hstep : agent_step ag true state obs_reward len_my_units len_enemy_units
      reward_actions game_time policy_selected random_action
      = execute_branch (update_final_reward_and_retrain ag obs_reward len_my_units
          len_enemy_units "terminal") reward_actions := by
    unfold agent_step
    dsimp only
    rw [if_pos hcond, hu_ma]
    rfl
  refine ⟨?_, ?_, ?_, ?_⟩
  · rw [hstep, execute_branch_fst, hu_ma]
    rfl
  · rw [hstep, execute_branch_multiActions, hu_ma]
    rfl
  · rw [hstep, execute_branch_qtable]
  · rw [new_game_multiActions, hstep, execute_branch_multiActions, hu_ma]
    rfl

/-- Witness for C3 (amended) at the concrete mid-queue agent state. -/
theorem C3_amended_witness :
    (agent_step sampleMidQueueAgent true "s1" 0 5 7 2 1 "policy_1" true).1
      = Command.dispatch "a1"
    ∧ (agent_step sampleMidQueueAgent true "s1" 0 5 7 2 1 "policy_1" true).2.multiActions
      = ["a2", "a3"]
    ∧ (agent_step sampleMidQueueAgent true "s1" 0 5 7 2 1 "policy_1" true).2.qtable
      = (update_final_reward_and_retrain sampleMidQueueAgent 0 5 7 "terminal").qtable
    ∧ (new_game (agent_step sampleMidQueueAgent true "s1" 0 5 7 2 1 "policy_1"
        true).2).multiActions = ["a2", "a3"] :=
  C3_amended sampleMidQueueAgent "a1" ["a2", "a3"] "s1" 0 5 7 2 1 "policy_1" true rfl rfl

/- ### C6: the terminal reward -/

/-- C6 (code bug in the draw branch): the win and loss rewards are the fixed
constants +100 and -50, but on a draw the reward is 0 for EVERY pair of unit
counts: the source assigns both `len_my` and `len_enemy` from
`len_enemy_units`, so the ratio is always 1 and `int(0.1 * 1) = 0`.  The
draw reward is therefore never negative and never depends on the own
unit count of the agent, contradicting the claim and the docstring of the source itself. -/
theorem C6_final_reward (len_my_units len_enemy_units : Nat) :
    final_reward_value 1 len_my_units len_enemy_units = 100
    ∧ final_reward_value (-1) len_my_units len_enemy_units = -50
    ∧ final_reward_value 0 len_my_units len_enemy_units = 0 := by
  have hx : ∀ x : ℚ, x ≠ 0 →
      min ((pyTrunc ((1 / 10 : ℚ) * (x / x)) : ℤ) : ℚ) 10 = 0 := by
    intro x hxne
    rw [div_self hxne, mul_one]
    have h1 : pyTrunc ((1 / 10 : ℚ)) = 0 := by
      unfold pyTrunc
      rw [if_pos (by norm_num)]
      rw [Int.floor_eq_zero_iff.mpr (by rw [Set.mem_Ico]; constructor <;> norm_num)]
    rw [h1]
    norm_num
  refine ⟨rfl, rfl, ?_⟩
  unfold final_reward_value
  dsimp only
  norm_num
  by_cases he : 0 < len_enemy_units
  · rw [if_pos he]
    have hpos : (0 : ℚ) < (len_enemy_units : ℚ) := by exact_mod_cast he
    exact hx _ (ne_of_gt hpos)
  · rw [if_neg he]
    exact hx 1 one_ne_zero

/- ### C9: the exponential exploration decay -/

/-- C9: `exponential_decay(episode, d, m) = m * exp(-d * episode)`; with the
constants of the source `d = 0.0003, m = 1.0` its value at episode 0 is exactly 1
and it strictly decreases as the episode number increases. -/
theorem C9_exponential_decay :
    (∀ (episode : Nat) (d m : ℝ),
        QLearningTable.exponential_decay episode d m = m * Real.exp (-(d * episode)))
    ∧ QLearningTable.exponential_decay 0 0.0003 1.0 = 1
    ∧ ∀ e₁ e₂ : Nat, e₁ < e₂ →
        QLearningTable.exponential_decay e₂ 0.0003 1.0
          < QLearningTable.exponential_decay e₁ 0.0003 1.0 := by
  refine ⟨fun _ _ _ => rfl, ?_, ?_⟩
  · unfold QLearningTable.exponential_decay
    norm_num
  · intro e₁ e₂ h
    unfold QLearningTable.exponential_decay
    have h1 : (1.0 : ℝ) = 1 := by norm_num
    rw [h1, one_mul, one_mul]
    apply Real.exp_lt_exp.mpr
    apply neg_lt_neg
    apply mul_lt_mul_of_pos_left _ (by norm_num : (0 : ℝ) < 0.0003)
    exact_mod_cast h

/-- Witness for C9: one episode later, the decayed epsilon is strictly
smaller. -/
theorem C9_exponential_decay_witness :
    QLearningTable.exponential_decay 1 0.0003 1.0
      < QLearningTable.exponential_decay 0 0.0003 1.0 :=
  C9_exponential_decay.2.2 0 1 (by decide)

/- ### C10: the exploration floor -/

/-- C10: in training mode, on every decision tick (queue empty — including a
terminal tick, where the terminal path runs first), the epsilon the
controller stores and passes to `choose_action` is
`max(EXPLORATION_MIN, exponential_decay(episodes, ...))`, hence at least
`EXPLORATION_MIN = 0.1`: the effective exploration probability never decays
below 0.1. -/
theorem C10_exploration_min (ag : AgentState) (obs_last : Bool) (state : State)
    (obs_reward : Int) (len_my_units len_enemy_units : Nat) (reward_actions : ℚ)
    (game_time : Nat) (policy_selected : Policy) (random_action : Bool)
    (htm : ag.train_mode = true) (hq : ag.multiActions = []) :
    (agent_step ag obs_last state obs_reward len_my_units len_enemy_units reward_actions
        game_time policy_selected random_action).2.epsilon = step_epsilon ag.episodes
    ∧ EXPLORATION_MIN ≤ step_epsilon ag.episodes
    ∧ (1 : ℝ) / 10 ≤ step_epsilon ag.episodes := by
  have hmin : (1 : ℝ) / 10 ≤ step_epsilon ag.episodes := by
    have h1 : (1 : ℝ) / 10 = EXPLORATION_MIN := by norm_num [EXPLORATION_MIN]
    rw [h1]
    exact le_max_left _ _
  refine ⟨?_, le_max_left _ _, hmin⟩
  cases obs_last with
  | true =>
      have hcond : (ag.train_mode && true) = true := by rw [htm]; rfl
      have hu_ma : (update_final_reward_and_retrain ag obs_reward len_my_units
          len_enemy_units "terminal").multiActions = [] := hq
      have hstep : agent_step ag true state obs_reward len_my_units len_enemy_units
          reward_actions game_time policy_selected random_action
          = decision_branch (update_final_reward_and_retrain ag obs_reward len_my_units
              len_enemy_units "terminal") true state game_time policy_selected
              random_action := by
        unfold agent_step
        dsimp only
        rw [if_pos hcond, hu_ma]
        rfl
      rw [hstep,
        decision_branch_epsilon _ _ _ _ _ _
          ((update_final_train_mode ag obs_reward len_my_units len_enemy_units
            "terminal").trans htm),
        update_final_episodes]
  | false =>
      have hcond : ¬((ag.train_mode && false) = true) := by
        rw [htm]
        exact Bool.false_ne_true
      have hag1 : (if (ag.train_mode && false) = true then
            update_final_reward_and_retrain ag obs_reward len_my_units len_enemy_units
              "terminal"
          else ag) = ag := if_neg hcond
      have hstep : agent_step ag false state obs_reward len_my_units len_enemy_units
          reward_actions game_time policy_selected random_action
          = decision_branch ag false state game_time policy_selected random_action := by
        unfold agent_step
        dsimp only
        rw [hag1, hq]
        rfl
      rw [hstep, decision_branch_epsilon _ _ _ _ _ _ htm]

/-- Witness for C10 at a concrete idle training agent on a non-terminal
tick: the stored epsilon equals the clamped decay and is at least 0.1. -/
theorem C10_exploration_min_witness :
    (agent_step sampleIdleAgent false "s1" 0 5 5 0 0 "policy_0" false).2.epsilon
      = step_epsilon sampleIdleAgent.episodes
    ∧ EXPLORATION_MIN ≤ step_epsilon sampleIdleAgent.episodes
    ∧ (1 : ℝ) / 10 ≤ step_epsilon sampleIdleAgent.episodes :=
  C10_exploration_min sampleIdleAgent false "s1" 0 5 5 0 0 "policy_0" false rfl rfl

end RLAgentSC2
